import Mathlib

/-!
Verification development for the `csv-format-support` repository
(`src/source/formatter.py`).

The Python script is shallowly embedded below.  External collaborators
(the RDKit standardization capability, the `uuid.uuid4` generator and the
`est_schema_field_type` type-estimator) are passed in as explicit oracle
functions; the `data_manager_metadata` annotation class, which is not part
of this repository, is modelled from the spec where needed.  Fatal paths
(`sys.exit(1)` and uncaught exceptions, both of which terminate the
process with a non-zero exit) are modelled by `Except.error 1`.
-/

namespace CsvFormat

/-! ## String primitives

The Python string operations used by the script (`str.split`,
`str.replace(old, '')`, `str.lower`) are modelled by structurally
recursive functions on character lists (a fuel argument bounded by the
string length makes the recursion structural) so that every definition
evaluates inside the kernel. -/

deriving instance DecidableEq for Except

/-- Remove every non-overlapping occurrence of `pat` from `s`, scanning
left to right — Python `s.replace(pat, '')` for a non-empty `pat`. -/
def removeAllAux (pat : List Char) : Nat → List Char → List Char
  | _, [] => []
  | 0, s => s
  | fuel + 1, c :: cs =>
    if pat.isPrefixOf (c :: cs) then removeAllAux pat fuel (List.drop (pat.length - 1) cs)
    else c :: removeAllAux pat fuel cs

/-- Python `s.replace(pat, '')`. -/
def pyRemoveAll (pat s : String) : String :=
  if pat.isEmpty then s else String.mk (removeAllAux pat.toList s.toList.length s.toList)

/-- Split on every non-overlapping occurrence of `sep`, scanning left to
right — Python `s.split(sep)` for a non-empty `sep`. -/
def splitOnAux (sep : List Char) : Nat → List Char → List Char → List (List Char)
  | 0, acc, s => [acc.reverse ++ s]
  | _, acc, [] => [acc.reverse]
  | fuel + 1, acc, c :: cs =>
    if sep.isPrefixOf (c :: cs) then
      acc.reverse :: splitOnAux sep fuel [] (List.drop (sep.length - 1) cs)
    else splitOnAux sep fuel (c :: acc) cs

/-- Python `s.split(sep)`. -/
def pySplit (sep s : String) : List String :=
  if sep.isEmpty then [s]
  else (splitOnAux sep.toList s.toList.length [] s.toList).map String.mk

/-- Python `s.lower()` (ASCII case folding, which covers every string the
script lowercases). -/
def pyLower (s : String) : String := String.mk (s.toList.map Char.toLower)

/-! ## Processing variables (`get_processing_variables`, formatter.py lines 64-101) -/

/-- A value held in the Python `process_vars` dictionary: either one of the
boolean defaults or the raw string taken from the parameter blob. -/
inductive PVal where
  | b : Bool → PVal
  | s : String → PVal
deriving DecidableEq, Repr

/-- The two recognized processing variables (`generate_uuid`, `header`). -/
structure ProcessVars where
  generate_uuid : PVal
  header : PVal
deriving DecidableEq, Repr

/-- Python truthiness of a `process_vars` entry as consumed by
`if processing_vars[...]:` — a boolean is itself, a string is truthy
exactly when non-empty. -/
def truthy : PVal → Bool
  | .b x => x
  | .s v => !(v == "")

/-- Defaults set at the top of `get_processing_variables`. -/
def defaultVars : ProcessVars := { generate_uuid := PVal.b true, header := PVal.b true }

/-- One iteration of the `for row in params` loop: split the row on `=`;
if the key is recognized case-insensitively, store `param[1]` under the
literal key (`process_vars[param[0]] = param[1]`), so only an exactly
spelled key updates the entry read later; accessing a missing `param[1]`
raises `IndexError`, caught by the bare `except` which exits the process. -/
def applyParam (pv : ProcessVars) (row : String) : Except Nat ProcessVars :=
  let parts := pySplit "=" row
  let key := parts.headD ""
  if pyLower key == "generate_uuid" || pyLower key == "header" then
    match parts.get? 1 with
    | none => .error 1
    | some v =>
      if key == "generate_uuid" then .ok { pv with generate_uuid := PVal.s v }
      else if key == "header" then .ok { pv with header := PVal.s v }
      else .ok pv
  else .ok pv

/-- The post-loop conversion: a string value equal to `'false'` ignoring
case becomes boolean `False`; any other assigned string is left as the
string itself. -/
def finalizeFlag : PVal → PVal
  | .s v => if pyLower v == "false" then PVal.b false else PVal.s v
  | p => p

/-- `get_processing_variables` (formatter.py lines 64-101).  The blob is
`DT_DATASET_EXTRA_VARIABLES`; `None` or the empty string yields the
defaults (`if not dataset_extra_variables`). -/
def get_processing_variables (blob : Option String) : Except Nat ProcessVars :=
  match blob with
  | none => .ok defaultVars
  | some b =>
    if b == "" then .ok defaultVars
    else
      match (pySplit "&" b).foldlM applyParam defaultVars with
      | .error e => .error e
      | .ok pv =>
        .ok { generate_uuid := finalizeFlag pv.generate_uuid,
              header := finalizeFlag pv.header }

/-! ## UUID validation (`is_valid_uuid`, formatter.py lines 119-128) -/

/-- Hexadecimal digit test used by the platform UUID parser. -/
def isHexChar (c : Char) : Bool :=
  c.isDigit || (97 ≤ c.toNat && c.toNat ≤ 102) || (65 ≤ c.toNat && c.toNat ≤ 70)

/-- Opening or closing curly-brace character (code points 123 and 125). -/
def isBraceChar (c : Char) : Bool := c.toNat == 123 || c.toNat == 125

/-- Python `str.strip` limited to the two brace characters: remove them
from both ends of the string. -/
def pyStripBraces (s : String) : String :=
  String.mk (((s.toList.dropWhile isBraceChar).reverse.dropWhile isBraceChar).reverse)

/-- Modelled from the spec: the hex-extraction step of the platform UUID
parser (`uuid.UUID(hex=...)`, not part of this repository): occurrences of
`urn:` and `uuid:` are removed, surrounding braces stripped, and all
hyphens removed. -/
def pyUuidHex (s : String) : String :=
  pyRemoveAll "-" (pyStripBraces (pyRemoveAll "uuid:" (pyRemoveAll "urn:" s)))

/-- Modelled from the spec: the platform UUID parser `uuid.UUID(value)`,
which accepts exactly 32 hexadecimal digits after hex-extraction (any
version nibble) and raises `ValueError` otherwise. -/
def pyUUID (s : String) : Except Unit Unit :=
  let h := pyUuidHex s
  if h.length == 32 && h.toList.all isHexChar then .ok () else .error ()

/-- `is_valid_uuid` (formatter.py lines 119-128): try the platform parser
and convert a `ValueError` into `False`. -/
def is_valid_uuid (value : String) : Bool :=
  match pyUUID value with
  | .ok _ => true
  | .error _ => false

/-! ## The external standardization capability -/

/-- Data derivable from a non-null RDKit molecule handle: the values the
script obtains through `Chem.inchi.MolToInchi`, `Chem.inchi.InchiToInchiKey`
and `GetNumHeavyAtoms`.  These are opaque external computations, so they
are carried as fields of the oracle's answer. -/
structure Mol where
  inchis : String
  inchik : String
  hac : Nat
deriving DecidableEq, Repr

/-- Outcome of one call to `standardize_to_noniso_smiles`: either the call
raises (any exception), or it returns a pair of a non-isomeric smiles
string and an optional molecule handle (`None` = could not standardize). -/
inductive StdResult where
  | raises : StdResult
  | ret : String → Option Mol → StdResult
deriving DecidableEq, Repr

/-! ## Resolved configuration

`process_file` and `check_file_format` read `processing_vars['generate_uuid']`
and `processing_vars['header']` only through `if` truthiness, so they are
given the truthiness view of the two entries. -/

structure Config where
  generate_uuid : Bool
  header : Bool
deriving DecidableEq, Repr

/-- The truthiness view of the parsed processing variables. -/
def Config.ofVars (pv : ProcessVars) : Config :=
  { generate_uuid := truthy pv.generate_uuid, header := truthy pv.header }

/-! ## File-format check (`check_file_format`, formatter.py lines 174-238)

The csv dialect sniffing is an external byte-level concern and is not
modelled; a file is a list of rows of cells already split under the
detected dialect.  `csv.DictReader` without fieldnames takes row 0 as the
fieldnames and `next(input_reader)` yields row 1 as a dictionary keyed by
row 0.  Row dictionaries are association lists; column names are assumed
distinct (Python dictionary keys are unique), so first-match lookup agrees
with the Python dictionary. -/

/-- The fixed loader-output columns (`_OUTPUT_COLUMNS`, formatter.py
lines 27-28). -/
def OUTPUT_COLUMNS : List String :=
  ["smiles", "inchis", "inchik", "hac", "molecule-uuid", "rec_number"]

/-- `check_file_format`: returns the reader fieldnames (the keys of
`old_headings`), the output headings, the smiles column name and the uuid
column name, or exits.  Fewer than two rows or fewer than two columns
raises an uncaught `StopIteration` (non-zero exit); a `None` value in the
smiles position makes `standardize_to_noniso_smiles` raise, which also
exits; a `None` value in the second position stringifies to `"None"`
inside `is_valid_uuid` and simply fails validation. -/
def check_file_format (cfg : Config) (std : String → StdResult)
    (rows : List (List String)) :
    Except Nat (List String × List String × String × String) :=
  match rows with
  | r0 :: r1 :: _ =>
    match r0 with
    | smilesCol :: secondCol :: restCols =>
      let oldDict := r0.zip r1
      let smilesVal? := if cfg.header then List.lookup smilesCol oldDict else some smilesCol
      let uuidVal := if cfg.header then (List.lookup secondCol oldDict).getD "None"
                     else secondCol
      match smilesVal? with
      | none => .error 1
      | some sv =>
        match std sv with
        | .raises => .error 1
        | .ret _ none => .error 1
        | .ret _ (some _) =>
          if !cfg.generate_uuid && !is_valid_uuid uuidVal then .error 1
          else if cfg.generate_uuid && !is_valid_uuid uuidVal then
            .ok (r0, smilesCol :: "uuid" :: secondCol :: restCols, smilesCol, "uuid")
          else .ok (r0, r0, smilesCol, secondCol)
    | _ => .error 1
  | _ => .error 1

/-! ## Record processing (`process_file`, formatter.py lines 289-377) -/

/-- `check_name_in_fields` (formatter.py lines 131-137) with the external
`est_schema_field_type` passed as the oracle `est`. -/
def check_name_in_fields (field value : String) (fields : List (String × String))
    (est : String → String) : List (String × String) :=
  if fields.any (fun p => p.1 == field) then fields else fields ++ [(field, est value)]

/-- `write_output_csv_fail` (formatter.py lines 247-260): the output row
starts as `dict.fromkeys(output_headings, 0)`, is overwritten by every
input column, and finally gets an empty string in the uuid column.  The
row is rendered in output-heading order as `csv.DictWriter` does. -/
def write_output_csv_fail (outH : List String) (uuidCol : String)
    (row : List (String × String)) : List String :=
  outH.map (fun col => if col == uuidCol then "" else (List.lookup col row).getD "0")

/-- `write_output_csv` (formatter.py lines 263-286): same row shape but
with the freshly generated uuid in the uuid column, and the observed
fields dictionary extended via `check_name_in_fields` for every input
column.  The generated `uuid.uuid4()` value is supplied as `molUuid`. -/
def write_output_csv (outH : List String) (uuidCol : String)
    (row : List (String × String)) (molUuid : String)
    (fields : List (String × String)) (est : String → String) :
    List String × List (String × String) :=
  let fields2 := row.foldl (fun fs p => check_name_in_fields p.1 p.2 fs est) fields
  (outH.map (fun col => if col == uuidCol then molUuid else (List.lookup col row).getD "0"),
   fields2)

/-- Mutable state of the `process_file` loop: the three counters, the
observed-fields dictionary, the rows written to the loader csv, the data
rows written to the rewritten input file, and the position in the
`uuid.uuid4` stream. -/
structure RunState where
  num_processed : Nat
  num_failed : Nat
  num_mols : Nat
  fields : List (String × String)
  loader : List (List String)
  rewritten : List (List String)
  genIdx : Nat
deriving DecidableEq, Repr

/-- One row written to the loader csv (formatter.py lines 365-370). -/
def loaderRow (c : String) (m : Mol) (mu : String) (recNo : Nat) : List String :=
  [c, m.inchis, m.inchik, Nat.repr m.hac, mu, Nat.repr recNo]

/-- One iteration of the `for row in input_reader` loop (formatter.py
lines 328-370).  A raise from the capability exits the process; a null
handle counts a failure and (in generation mode) writes the failure row;
otherwise generation mode writes the rewritten row with a fresh uuid and a
loader row, while validation mode checks the existing uuid value (a
missing key reads as Python `None`, stringified to `"None"`). -/
def processRow (cfg : Config) (smilesCol uuidCol : String) (outH : List String)
    (std : String → StdResult) (gen : Nat → String) (est : String → String)
    (st : RunState) (row : List (String × String)) : Except Nat RunState :=
  let n := st.num_processed + 1
  match List.lookup smilesCol row with
  | none => .error 1
  | some sm =>
    match std sm with
    | .raises => .error 1
    | .ret _ none =>
      .ok { st with
            num_processed := n
            num_failed := st.num_failed + 1
            rewritten := if cfg.generate_uuid then
                st.rewritten ++ [write_output_csv_fail outH uuidCol row]
              else st.rewritten }
    | .ret c (some m) =>
      if cfg.generate_uuid then
        let mu := gen st.genIdx
        let wr := write_output_csv outH uuidCol row mu st.fields est
        .ok { st with
              num_processed := n
              num_mols := st.num_mols + 1
              genIdx := st.genIdx + 1
              rewritten := st.rewritten ++ [wr.1]
              fields := wr.2
              loader := st.loader ++ [loaderRow c m mu n] }
      else
        let v := (List.lookup uuidCol row).getD "None"
        if is_valid_uuid v then
          .ok { st with
                num_processed := n
                num_mols := st.num_mols + 1
                loader := st.loader ++ [loaderRow c m v n] }
        else
          .ok { st with
                num_processed := n
                num_mols := st.num_mols + 1
                num_failed := st.num_failed + 1 }

/-- The whole record loop. -/
def processRows (cfg : Config) (smilesCol uuidCol : String) (outH : List String)
    (std : String → StdResult) (gen : Nat → String) (est : String → String) :
    RunState → List (List (String × String)) → Except Nat RunState
  | st, [] => .ok st
  | st, r :: rs =>
    match processRow cfg smilesCol uuidCol outH std gen est st r with
    | .error e => .error e
    | .ok st2 => processRows cfg smilesCol uuidCol outH std gen est st2 rs

/-- The initial observed-fields dictionary
`{smiles_col: 'string', uuid_col: 'string'}` (formatter.py line 312);
a Python dictionary collapses equal keys. -/
def initFields (smilesCol uuidCol : String) : List (String × String) :=
  if uuidCol == smilesCol then [(smilesCol, "string")]
  else [(smilesCol, "string"), (uuidCol, "string")]

/-- The state at the top of the loop. -/
def initState (smilesCol uuidCol : String) : RunState :=
  { num_processed := 0, num_failed := 0, num_mols := 0,
    fields := initFields smilesCol uuidCol, loader := [], rewritten := [], genIdx := 0 }

/-- `process_file` (formatter.py lines 289-377).  With a header the first
reader row is skipped by `next(input_reader)`, which raises an uncaught
`StopIteration` on an empty reader.  The rewritten-file heading row (only
in generation mode with a header) is assembled by the pipeline below and
kept out of `RunState.rewritten`, which holds data rows only. -/
def process_file (cfg : Config) (smilesCol uuidCol : String) (outH : List String)
    (std : String → StdResult) (gen : Nat → String) (est : String → String)
    (rows : List (List (String × String))) : Except Nat RunState :=
  if cfg.header then
    match rows with
    | [] => .error 1
    | _ :: rest =>
      processRows cfg smilesCol uuidCol outH std gen est (initState smilesCol uuidCol) rest
  else processRows cfg smilesCol uuidCol outH std gen est (initState smilesCol uuidCol) rows

/-! ## Fields-descriptor reconciliation (`process_fields_descriptor`,
formatter.py lines 380-428)

The `FieldsDescriptorAnnotation` class lives in the external
`data_manager_metadata` package.  Modelled from the spec: a field
descriptor is a `{name, inferred_type, active}` entry keyed by column
name; `get_fields` returns the current field map and
`add_field(name, active, type)` upserts — an existing entry has its active
flag updated (type kept when no type is passed), a new entry is appended
with the given type. -/

structure Field where
  name : String
  ftype : String
  active : Bool
deriving DecidableEq, Repr

/-- Does the descriptor contain a field of this name? -/
def hasFieldName (fs : List Field) (n : String) : Bool := fs.any (fun f => f.name == n)

/-- The first merge loop (formatter.py lines 417-419): every observed
field not already present is added, active, with its estimated type. -/
def addNewFields (observed : List (String × String)) (fs : List Field) : List Field :=
  match observed with
  | [] => fs
  | (n, t) :: rest =>
    if hasFieldName fs n then addNewFields rest fs
    else addNewFields rest (fs ++ [⟨n, t, true⟩])

/-- `add_field(name, False)` on an existing field: set it inactive,
keeping its type. -/
def setInactive (n : String) (fs : List Field) : List Field :=
  fs.map (fun f => if f.name == n then { f with active := false } else f)

/-- The second merge loop (formatter.py lines 421-423): every field of the
pre-merge snapshot that was not observed in this run is made inactive. -/
def deactivateMissing (obsNames : List String) (snapshot : List String)
    (fs : List Field) : List Field :=
  snapshot.foldl (fun acc n => if obsNames.contains n then acc else setInactive n acc) fs

/-- The field-map merge performed by `process_fields_descriptor`: observed
fields are upserted into the prior schema, then unobserved prior fields
are deactivated (the snapshot taken from `get_fields` before the first
loop is the prior field list). -/
def mergeFields (observed : List (String × String)) (prior : List Field) : List Field :=
  deactivateMissing (observed.map Prod.fst) (prior.map Field.name)
    (addNewFields observed prior)

/-- The base schema `_BASE_FIELD_NAMES` used when no prior descriptor
exists (formatter.py lines 31-36). -/
def BASE_FIELDS : List Field :=
  [⟨"smiles", "string", true⟩, ⟨"uuid", "string", true⟩]

/-! ## The pipeline (`__main__`, formatter.py lines 431-507) -/

/-- Result of a completed run: final counters, observed fields, the full
loader csv (heading row first), the full rewritten input file (present
only in generation mode, heading row first when the input had one), and
the resolved output headings and uuid column. -/
structure PipeResult where
  processed : Nat
  failed : Nat
  mols : Nat
  fields : List (String × String)
  loader : List (List String)
  rewritten : Option (List (List String))
  outHeadings : List String
  uuidCol : String
deriving DecidableEq, Repr

/-- The `__main__` glue: parse nothing here (the processing variables are
resolved by the caller), check the file format, re-read the whole file
under the returned fieldnames (`csv.DictReader(..., fieldnames=input_headings)`
zips every row with the fieldnames), run the record loop and assemble the
two output files.  Rows are assumed to have exactly the fieldname count
(the `DictReader` restval/restkey padding for ragged rows is not
modelled). -/
def runPipeline (pv : ProcessVars) (std : String → StdResult) (gen : Nat → String)
    (est : String → String) (rows : List (List String)) : Except Nat PipeResult :=
  let cfg := Config.ofVars pv
  match check_file_format cfg std rows with
  | .error e => .error e
  | .ok (inH, outH, smilesCol, uuidCol) =>
    let dataRows := rows.map (fun r => inH.zip r)
    match process_file cfg smilesCol uuidCol outH std gen est dataRows with
    | .error e => .error e
    | .ok st =>
      .ok { processed := st.num_processed, failed := st.num_failed, mols := st.num_mols,
            fields := st.fields,
            loader := OUTPUT_COLUMNS :: st.loader,
            rewritten := if cfg.generate_uuid then
                some ((if cfg.header then [outH] else []) ++ st.rewritten)
              else none,
            outHeadings := outH, uuidCol := uuidCol }

/-! ## Helper predicates and concrete oracles used by the theorems below -/

/-- The cell of a rendered output row under a given column name: rendered
rows are in output-heading order, so the cell is found by zipping the
headings with the row. -/
def uuidCellOf (outH : List String) (uuidCol : String) (row : List String) : Option String :=
  List.lookup uuidCol (outH.zip row)

/-- A rewritten-output data row is well-formed when its identifier cell is
the empty string or one of the first `bound` values of the uuid stream. -/
def rewrittenRowOk (outH : List String) (uuidCol : String) (gen : Nat → String)
    (bound : Nat) (r : List String) : Bool :=
  (uuidCellOf outH uuidCol r == some "") ||
    (List.range bound).any (fun k => uuidCellOf outH uuidCol r == some (gen k))

/-- Pointwise effect of `deactivateMissing`: a field is deactivated
exactly when its name is in the snapshot but not among the observed
names. -/
def deactF (obsNames snapshot : List String) (f : Field) : Field :=
  if snapshot.contains f.name && !(obsNames.contains f.name) then { f with active := false }
  else f

/-- A concrete standardization oracle: `CCO` (ethanol) standardizes to a
molecule with three heavy atoms; everything else returns a null handle. -/
def stdOracle : String → StdResult := fun s =>
  if s == "CCO" then StdResult.ret "CCO" (some ⟨"iC", "kC", 3⟩) else StdResult.ret "" none

/-- A concrete standardization oracle that raises on the input `boom`. -/
def stdRaise : String → StdResult := fun s =>
  if s == "boom" then StdResult.raises else stdOracle s

/-- A concrete uuid stream: the k-th fresh identifier (valid for k < 10). -/
def genOracle : Nat → String := fun k =>
  "11111111-1111-4111-8111-11111111111" ++ Nat.repr k

/-- A concrete type estimator. -/
def estOracle : String → String := fun _ => "string"

/-! ## Supporting lemmas -/

theorem lookup_zip_map (hs : List String) (f : String → String) (c : String) (hc : c ∈ hs) :
    List.lookup c (hs.zip (hs.map f)) = some (f c) := by
  induction hs with
  | nil => cases hc
  | cons h t ih =>
    simp only [List.map_cons, List.zip_cons_cons]
    by_cases hch : c = h
    · subst hch
      simp [List.lookup]
    · have hct : c ∈ t := (List.mem_cons.mp hc).resolve_left hch
      have hbeq : (c == h) = false := beq_eq_false_iff_ne.mpr hch
      simp [List.lookup, hbeq, ih hct]

theorem uuidCellOf_fail (outH : List String) (uuidCol : String)
    (row : List (String × String)) (hmem : uuidCol ∈ outH) :
    uuidCellOf outH uuidCol (write_output_csv_fail outH uuidCol row) = some "" := by
  unfold uuidCellOf write_output_csv_fail
  rw [lookup_zip_map outH _ uuidCol hmem]
  simp

theorem uuidCellOf_gen (outH : List String) (uuidCol : String)
    (row : List (String × String)) (mu : String) (fields : List (String × String))
    (est : String → String) (hmem : uuidCol ∈ outH) :
    uuidCellOf outH uuidCol (write_output_csv outH uuidCol row mu fields est).1 = some mu := by
  unfold uuidCellOf write_output_csv
  rw [lookup_zip_map outH _ uuidCol hmem]
  simp

theorem rewrittenRowOk_mono (outH : List String) (uuidCol : String) (gen : Nat → String)
    {b b' : Nat} (hb : b ≤ b') (r : List String)
    (h : rewrittenRowOk outH uuidCol gen b r = true) :
    rewrittenRowOk outH uuidCol gen b' r = true := by
  unfold rewrittenRowOk at h ⊢
  simp only [Bool.or_eq_true] at h ⊢
  rcases h with h1 | h2
  · exact Or.inl h1
  · obtain ⟨k, hk, hkeq⟩ := List.any_eq_true.mp h2
    refine Or.inr (List.any_eq_true.mpr ⟨k, ?_, hkeq⟩)
    exact List.mem_range.mpr (lt_of_lt_of_le (List.mem_range.mp hk) hb)

theorem processRow_shape (cfg : Config) (smilesCol uuidCol : String) (outH : List String)
    (std : String → StdResult) (gen : Nat → String) (est : String → String)
    (st st2 : RunState) (row : List (String × String))
    (h : processRow cfg smilesCol uuidCol outH std gen est st row = Except.ok st2) :
    (st2.genIdx = st.genIdx ∧ st2.rewritten = st.rewritten ∧ st2.loader = st.loader) ∨
    (st2.genIdx = st.genIdx ∧
      st2.rewritten = st.rewritten ++ [write_output_csv_fail outH uuidCol row] ∧
      st2.loader = st.loader) ∨
    (∃ c m mu, st2.genIdx = st.genIdx ∧ st2.rewritten = st.rewritten ∧
      st2.loader = st.loader ++ [loaderRow c m mu (st.num_processed + 1)]) ∨
    (∃ c m, st2.genIdx = st.genIdx + 1 ∧
      st2.rewritten = st.rewritten ++
        [(write_output_csv outH uuidCol row (gen st.genIdx) st.fields est).1] ∧
      st2.loader = st.loader ++
        [loaderRow c m (gen st.genIdx) (st.num_processed + 1)]) := by
  cases hk : List.lookup smilesCol row with
  | none => simp [processRow, hk] at h
  | some sm =>
    cases hs : std sm with
    | raises => simp [processRow, hk, hs] at h
    | ret c hm =>
      cases hm with
      | none =>
        by_cases hg : cfg.generate_uuid = true
        · simp [processRow, hk, hs, hg] at h
          subst h
          exact Or.inr (Or.inl ⟨rfl, rfl, rfl⟩)
        · simp [processRow, hk, hs, hg] at h
          subst h
          exact Or.inl ⟨rfl, rfl, rfl⟩
      | some m =>
        by_cases hg : cfg.generate_uuid = true
        · simp [processRow, hk, hs, hg] at h
          subst h
          exact Or.inr (Or.inr (Or.inr ⟨c, m, rfl, rfl, rfl⟩))
        · by_cases hv : is_valid_uuid ((List.lookup uuidCol row).getD "None") = true
          · simp [processRow, hk, hs, hg, hv] at h
            subst h
            exact Or.inr (Or.inr (Or.inl ⟨c, m, _, rfl, rfl, rfl⟩))
          · simp [processRow, hk, hs, hg, hv] at h
            subst h
            exact Or.inl ⟨rfl, rfl, rfl⟩

theorem processRows_loader_len (cfg : Config) (smilesCol uuidCol : String)
    (outH : List String) (std : String → StdResult) (gen : Nat → String)
    (est : String → String) :
    ∀ (rows : List (List (String × String))) (st st2 : RunState),
      processRows cfg smilesCol uuidCol outH std gen est st rows = Except.ok st2 →
      st.loader.all (fun r => r.length == 6) = true →
      st2.loader.all (fun r => r.length == 6) = true := by
  intro rows
  induction rows with
  | nil =>
    intro st st2 h hall
    simp only [processRows] at h
    cases h
    exact hall
  | cons r rs ih =>
    intro st st2 h hall
    simp only [processRows] at h
    cases hp : processRow cfg smilesCol uuidCol outH std gen est st r with
    | error e => rw [hp] at h; cases h
    | ok st1 =>
      rw [hp] at h
      refine ih st1 st2 h ?_
      rcases processRow_shape cfg smilesCol uuidCol outH std gen est st st1 r hp with
        ⟨_, _, hl⟩ | ⟨_, _, hl⟩ | ⟨c, m, mu, _, _, hl⟩ | ⟨c, m, _, _, hl⟩ <;>
        rw [hl] <;> simp_all [loaderRow]

theorem processRows_rewritten_all (cfg : Config) (smilesCol uuidCol : String)
    (outH : List String) (std : String → StdResult) (gen : Nat → String)
    (est : String → String) (hmem : uuidCol ∈ outH) :
    ∀ (rows : List (List (String × String))) (st st2 : RunState),
      processRows cfg smilesCol uuidCol outH std gen est st rows = Except.ok st2 →
      st.rewritten.all (rewrittenRowOk outH uuidCol gen st.genIdx) = true →
      st2.rewritten.all (rewrittenRowOk outH uuidCol gen st2.genIdx) = true := by
  intro rows
  induction rows with
  | nil =>
    intro st st2 h hall
    simp only [processRows] at h
    cases h
    exact hall
  | cons r rs ih =>
    intro st st2 h hall
    simp only [processRows] at h
    cases hp : processRow cfg smilesCol uuidCol outH std gen est st r with
    | error e => rw [hp] at h; cases h
    | ok st1 =>
      rw [hp] at h
      refine ih st1 st2 h ?_
      rcases processRow_shape cfg smilesCol uuidCol outH std gen est st st1 r hp with
        ⟨hg, hr, _⟩ | ⟨hg, hr, _⟩ | ⟨c, m, mu, hg, hr, _⟩ | ⟨c, m, hg, hr, _⟩
      · rw [hg, hr]; exact hall
      · rw [hg, hr]
        simp only [List.all_append, Bool.and_eq_true]
        refine ⟨hall, ?_⟩
        simp only [List.all_cons, List.all_nil, Bool.and_true]
        unfold rewrittenRowOk
        rw [uuidCellOf_fail outH uuidCol r hmem]
        simp
      · rw [hg, hr]; exact hall
      · rw [hg, hr]
        simp only [List.all_append, Bool.and_eq_true]
        refine ⟨?_, ?_⟩
        · refine List.all_eq_true.mpr ?_
          intro x hx
          exact rewrittenRowOk_mono outH uuidCol gen (Nat.le_succ _) x
            (List.all_eq_true.mp hall x hx)
        · simp only [List.all_cons, List.all_nil, Bool.and_true]
          unfold rewrittenRowOk
          rw [uuidCellOf_gen outH uuidCol r (gen st.genIdx) st.fields est hmem]
          simp only [Bool.or_eq_true]
          refine Or.inr (List.any_eq_true.mpr ⟨st.genIdx, ?_, ?_⟩)
          · exact List.mem_range.mpr (Nat.lt_succ_self _)
          · simp

theorem contains_of_mem {a : String} {l : List String} (h : a ∈ l) : l.contains a = true :=
  List.elem_iff.mpr h

theorem deactF_name (obs snap : List String) (f : Field) : (deactF obs snap f).name = f.name := by
  unfold deactF
  split <;> rfl

theorem deactF_step (obs rest : List String) (n : String) (f : Field) :
    deactF obs rest
      (if ((f.name == n) && !(obs.contains n)) = true then { f with active := false } else f) =
      deactF obs (n :: rest) f := by
  obtain ⟨fn, ft, fa⟩ := f
  by_cases h1 : fn = n
  · subst h1
    cases h2 : obs.contains fn with
    | true =>
      have hmem : fn ∈ obs := List.elem_iff.mp h2
      simp [deactF, List.contains_cons, hmem]
    | false =>
      have hmem : fn ∉ obs := by
        intro hm
        rw [contains_of_mem hm] at h2
        cases h2
      simp [deactF, List.contains_cons, hmem]
  · simp [deactF, List.contains_cons, beq_eq_false_iff_ne.mpr h1, h1]

theorem deactivateMissing_eq_map (obs snap : List String) :
    ∀ fs : List Field, deactivateMissing obs snap fs = fs.map (deactF obs snap) := by
  induction snap with
  | nil =>
    intro fs
    have hpoint : ∀ f ∈ fs, deactF obs [] f = f := by
      intro f _
      unfold deactF
      rw [List.contains_nil]
      simp
    calc deactivateMissing obs [] fs = fs := rfl
      _ = fs.map (fun f => f) := (List.map_id' fs).symm
      _ = fs.map (deactF obs []) := (List.map_congr_left (fun f hf => hpoint f hf)).symm
  | cons n rest ih =>
    intro fs
    have hstep : deactivateMissing obs (n :: rest) fs =
        deactivateMissing obs rest
          (if obs.contains n = true then fs else setInactive n fs) := by
      simp [deactivateMissing]
    rw [hstep, ih]
    cases h2 : obs.contains n with
    | true =>
      rw [if_pos rfl]
      refine List.map_congr_left ?_
      intro f _
      rw [← deactF_step obs rest n f, h2]
      simp only [Bool.not_true, Bool.and_false, Bool.false_eq_true, if_false]
    | false =>
      rw [if_neg (by simp)]
      simp only [setInactive, List.map_map]
      refine List.map_congr_left ?_
      intro f _
      simp only [Function.comp]
      rw [← deactF_step obs rest n f, h2]
      simp only [Bool.not_false, Bool.and_true]

theorem hasFieldName_map_deactF (obs snap : List String) (fs : List Field) (n : String) :
    hasFieldName (fs.map (deactF obs snap)) n = hasFieldName fs n := by
  induction fs with
  | nil => rfl
  | cons f rest ih =>
    simp only [List.map_cons, hasFieldName, List.any_cons] at ih ⊢
    rw [deactF_name]
    rw [show (rest.map (deactF obs snap)).any (fun g => g.name == n) = rest.any (fun g => g.name == n) from ih]

theorem mem_addNewFields (observed : List (String × String)) :
    ∀ (fs : List Field) (f : Field), f ∈ fs → f ∈ addNewFields observed fs := by
  induction observed with
  | nil =>
    intro fs f hf
    simpa [addNewFields] using hf
  | cons p rest ih =>
    obtain ⟨n, t⟩ := p
    intro fs f hf
    simp only [addNewFields]
    by_cases hn : hasFieldName fs n = true
    · rw [if_pos hn]
      exact ih fs f hf
    · rw [if_neg hn]
      exact ih _ f (List.mem_append_left _ hf)

theorem hasFieldName_addNewFields (observed : List (String × String)) :
    ∀ (fs : List Field) (n : String),
      ((observed.map Prod.fst).contains n || hasFieldName fs n) = true →
      hasFieldName (addNewFields observed fs) n = true := by
  induction observed with
  | nil =>
    intro fs n h
    simpa [addNewFields] using h
  | cons p rest ih =>
    obtain ⟨m, t⟩ := p
    intro fs n h
    simp only [List.map_cons, List.contains_cons, Bool.or_eq_true] at h
    simp only [addNewFields]
    by_cases hm : hasFieldName fs m = true
    · rw [if_pos hm]
      apply ih
      simp only [Bool.or_eq_true]
      rcases h with (hnm | hrest) | hfs
      · right
        have : n = m := beq_iff_eq.mp hnm
        subst this
        exact hm
      · exact Or.inl hrest
      · exact Or.inr hfs
    · rw [if_neg hm]
      apply ih
      simp only [Bool.or_eq_true]
      have happ : ∀ k, hasFieldName (fs ++ [(⟨m, t, true⟩ : Field)]) k =
          (hasFieldName fs k || (m == k)) := by
        intro k
        simp [hasFieldName, List.any_append]
      rcases h with (hnm | hrest) | hfs
      · right
        rw [happ n]
        have : n = m := beq_iff_eq.mp hnm
        subst this
        simp
      · exact Or.inl hrest
      · right
        rw [happ n, hfs]
        rfl

theorem addNewFields_eq_self (observed : List (String × String)) :
    ∀ fs : List Field, (∀ p ∈ observed, hasFieldName fs p.1 = true) →
      addNewFields observed fs = fs := by
  induction observed with
  | nil => intro fs _; rfl
  | cons p rest ih =>
    obtain ⟨n, t⟩ := p
    intro fs hall
    simp only [addNewFields]
    rw [if_pos (hall (n, t) (List.mem_cons_self _ _))]
    exact ih fs (fun q hq => hall q (List.mem_cons_of_mem _ hq))

theorem mem_addNewFields_inv (observed : List (String × String)) :
    ∀ (fs : List Field) (g : Field), g ∈ addNewFields observed fs →
      g ∈ fs ∨ ((observed.map Prod.fst).contains g.name = true ∧ g.active = true) := by
  induction observed with
  | nil =>
    intro fs g hg
    exact Or.inl (by simpa [addNewFields] using hg)
  | cons p rest ih =>
    obtain ⟨n, t⟩ := p
    intro fs g hg
    simp only [addNewFields] at hg
    by_cases hn : hasFieldName fs n = true
    · rw [if_pos hn] at hg
      rcases ih fs g hg with h | ⟨hc, ha⟩
      · exact Or.inl h
      · exact Or.inr ⟨by rw [List.map_cons, List.contains_cons, hc, Bool.or_true], ha⟩
    · rw [if_neg hn] at hg
      rcases ih _ g hg with h | ⟨hc, ha⟩
      · rcases List.mem_append.mp h with h2 | h2
        · exact Or.inl h2
        · have hgeq : g = ⟨n, t, true⟩ := by simpa using h2
          subst hgeq
          exact Or.inr ⟨by rw [List.map_cons, List.contains_cons]; simp, rfl⟩
      · exact Or.inr ⟨by rw [List.map_cons, List.contains_cons, hc, Bool.or_true], ha⟩

theorem addNewFields_active (observed : List (String × String)) :
    ∀ (fs : List Field) (n : String),
      (observed.map Prod.fst).contains n = true → hasFieldName fs n = false →
      ∃ g ∈ addNewFields observed fs, g.name = n ∧ g.active = true := by
  induction observed with
  | nil =>
    intro fs n hc _
    simp at hc
  | cons p rest ih =>
    obtain ⟨m, t⟩ := p
    intro fs n hc hno
    simp only [List.map_cons, List.contains_cons, Bool.or_eq_true] at hc
    simp only [addNewFields]
    by_cases hm : hasFieldName fs m = true
    · rw [if_pos hm]
      rcases hc with hnm | hrest
      · exfalso
        have : n = m := beq_iff_eq.mp hnm
        subst this
        rw [hno] at hm
        cases hm
      · exact ih fs n hrest hno
    · rw [if_neg hm]
      by_cases hnm : n = m
      · subst hnm
        exact ⟨⟨n, t, true⟩, mem_addNewFields rest _ _ (by simp), rfl, rfl⟩
      · rcases hc with hbeq | hrest
        · exact absurd (beq_iff_eq.mp hbeq) hnm
        · refine ih _ n hrest ?_
          have hno2 : ∀ x ∈ fs, ¬x.name = n := by
            intro x hx hxe
            have hcontr : hasFieldName fs n = true :=
              List.any_eq_true.mpr ⟨x, hx, by rw [hxe]; exact beq_self_eq_true n⟩
            rw [hno] at hcontr
            cases hcontr
          have hmn2 : ¬m = n := fun he => hnm he.symm
          simp [hasFieldName, List.any_append, hmn2]
          exact hno2

theorem mergeFields_unobserved_inactive (observed : List (String × String))
    (prior : List Field) :
    ∀ g ∈ mergeFields observed prior,
      (observed.map Prod.fst).contains g.name = false → g.active = false := by
  intro g hg hc
  unfold mergeFields at hg
  rw [deactivateMissing_eq_map] at hg
  obtain ⟨f, hf, rfl⟩ := List.mem_map.mp hg
  rw [deactF_name] at hc
  unfold deactF
  by_cases hcond : ((prior.map Field.name).contains f.name &&
      !((observed.map Prod.fst).contains f.name)) = true
  · rw [if_pos hcond]
  · rw [if_neg hcond]
    rcases mem_addNewFields_inv observed prior f hf with hp | ⟨hcf, _⟩
    · exfalso
      apply hcond
      have h1 : (prior.map Field.name).contains f.name = true :=
        contains_of_mem (List.mem_map.mpr ⟨f, hp, rfl⟩)
      rw [h1, hc]
      rfl
    · rw [hcf] at hc
      cases hc

theorem mergeFields_observed_present (observed : List (String × String))
    (prior : List Field) :
    ∀ p ∈ observed, hasFieldName (mergeFields observed prior) p.1 = true := by
  intro p hp
  unfold mergeFields
  rw [deactivateMissing_eq_map, hasFieldName_map_deactF]
  apply hasFieldName_addNewFields
  rw [contains_of_mem (List.mem_map.mpr ⟨p, hp, rfl⟩)]
  rfl

/-! ## Claim theorems -/

/-- C1: the accounting invariant `processed == succeeded + failed` claimed
for the end of `process_file` is violated by the code: in validation mode
(`generate_uuid=false`) a record that standardizes but carries an invalid
identifier increments `num_mols` before the identifier check and then also
increments `num_failed`, so on a run with one valid record and one such
record the counters end at `processed = 2`, `mols = 2`, `failed = 1`
(`2 ≠ 2 + 1`), and `num_mols = 2` even though only one row was emitted to
the load-ready table. -/
theorem c1_counters_eval :
    runPipeline { generate_uuid := PVal.b false, header := PVal.b true }
      stdOracle genOracle estOracle
      [["smiles", "uuid"],
       ["CCO", "f47ac10b-58cc-4372-a567-0e02b2c3d479"],
       ["CCO", "not-a-uuid"]] =
    Except.ok
      { processed := 2, failed := 1, mols := 2,
        fields := [("smiles", "string"), ("uuid", "string")],
        loader := [OUTPUT_COLUMNS,
                   ["CCO", "iC", "kC", "3", "f47ac10b-58cc-4372-a567-0e02b2c3d479", "1"]],
        rewritten := none, outHeadings := ["smiles", "uuid"], uuidCol := "uuid" } ∧
    ¬ ((2 : Nat) = 2 + 1) := by
  exact ⟨by decide, by decide⟩

/-- C2 counterexample: in generation mode without column insertion
(the first data row's second column holds a valid identifier, so the
identifier column is an original input column), a record that fails
standardization and whose original identifier cell is the empty string is
rewritten with the empty string in the identifier column — which IS the
literal value that appeared in that column of the input row `["junk",""]`,
refuting "never the literal value".  The full run result is computed: the
rewritten-input output is the heading row followed by a fresh-uuid row and
the failure row `["junk",""]`. -/
theorem c2_counterexample :
    runPipeline defaultVars stdOracle genOracle estOracle
      [["smiles", "uuid"],
       ["CCO", "f47ac10b-58cc-4372-a567-0e02b2c3d479"],
       ["junk", ""]] =
    Except.ok
      { processed := 2, failed := 1, mols := 1,
        fields := [("smiles", "string"), ("uuid", "string")],
        loader := [OUTPUT_COLUMNS,
                   ["CCO", "iC", "kC", "3", "11111111-1111-4111-8111-111111111110", "1"]],
        rewritten := some [["smiles", "uuid"],
                           ["CCO", "11111111-1111-4111-8111-111111111110"],
                           ["junk", ""]],
        outHeadings := ["smiles", "uuid"], uuidCol := "uuid" } ∧
    uuidCellOf ["smiles", "uuid"] "uuid" ["junk", ""] = some "" ∧
    List.lookup "uuid" (["smiles", "uuid"].zip ["junk", ""]) = some "" := by
  exact ⟨by decide, by decide, by decide⟩

/-- C2 amended: in generation mode, every data row written to the
rewritten-input output carries, in the identifier column, either one of
the freshly generated identifiers (success) or the empty string (failure);
"never the literal original value" holds only when the original cell
differs from the written value — in particular a failed record whose
original identifier cell was already empty retains the empty value. -/
theorem c2_rewritten_identifier_cells (cfg : Config) (smilesCol uuidCol : String)
    (outH : List String) (std : String → StdResult) (gen : Nat → String)
    (est : String → String) (rows : List (List (String × String))) (st2 : RunState)
    (hgen : cfg.generate_uuid = true) (hmem : uuidCol ∈ outH)
    (hrun : process_file cfg smilesCol uuidCol outH std gen est rows = Except.ok st2) :
    st2.rewritten.all (rewrittenRowOk outH uuidCol gen st2.genIdx) = true := by
  unfold process_file at hrun
  by_cases hh : cfg.header = true
  · rw [if_pos hh] at hrun
    cases rows with
    | nil => cases hrun
    | cons r0 rs =>
      exact processRows_rewritten_all cfg smilesCol uuidCol outH std gen est hmem rs
        (initState smilesCol uuidCol) st2 hrun rfl
  · rw [if_neg hh] at hrun
    exact processRows_rewritten_all cfg smilesCol uuidCol outH std gen est hmem rows
      (initState smilesCol uuidCol) st2 hrun rfl

/-- C2 witness: the amended theorem applied to a concrete two-record run
(one standardization success, one failure with an empty original
identifier cell). -/
theorem c2_rewritten_identifier_cells_witness :
    ([["CCO", "11111111-1111-4111-8111-111111111110"], ["junk", ""]] : List (List String)).all
      (rewrittenRowOk ["smiles", "uuid"] "uuid" genOracle 1) = true :=
  c2_rewritten_identifier_cells ⟨true, true⟩ "smiles" "uuid" ["smiles", "uuid"]
    stdOracle genOracle estOracle
    [[("smiles", "smiles"), ("uuid", "uuid")],
     [("smiles", "CCO"), ("uuid", "f47ac10b-58cc-4372-a567-0e02b2c3d479")],
     [("smiles", "junk"), ("uuid", "")]]
    { num_processed := 2, num_failed := 1, num_mols := 1,
      fields := [("smiles", "string"), ("uuid", "string")],
      loader := [["CCO", "iC", "kC", "3", "11111111-1111-4111-8111-111111111110", "1"]],
      rewritten := [["CCO", "11111111-1111-4111-8111-111111111110"], ["junk", ""]],
      genIdx := 1 }
    rfl (by decide) rfl

/-- C3 counterexample: with `header=true` and `generate_uuid=false` the
claim says the considered column-1 value is the header text (`"uuid"`
here), which is not a valid identifier, so the run should abort with a
non-zero exit; the code instead considers the first data row's value
(a valid identifier) and returns successfully with the headings
unchanged. -/
theorem c3_counterexample :
    is_valid_uuid "uuid" = false ∧
    check_file_format { generate_uuid := false, header := true } stdOracle
      [["smiles", "uuid"], ["CCO", "f47ac10b-58cc-4372-a567-0e02b2c3d479"]] =
    Except.ok (["smiles", "uuid"], ["smiles", "uuid"], "smiles", "uuid") := by
  exact ⟨by decide, by decide⟩

/-- C3 amended: the column-1 value evaluated by `check_file_format` is the
first data row's value in column 1 (the row after the heading row when
`header=true`, the very first row when `header=false`), not the header
text; given that the smiles check passes, an invalid value with
`generate_uuid=false` aborts with a non-zero exit, an invalid value with
`generate_uuid=true` inserts a new `uuid` column at position 1 shifting
the remaining columns right, and a valid value keeps the headings
unchanged. -/
theorem c3_heading_reconciliation (cfg : Config) (std : String → StdResult)
    (s0 c0 : String) (t0 : List String) (s1 c1 : String) (t1 : List String)
    (rest : List (List String)) (c sv cv : String) (m : Mol)
    (hne : c0 ≠ s0)
    (hsv : (if cfg.header then s1 else s0) = sv)
    (hcv : (if cfg.header then c1 else c0) = cv)
    (hstd : std sv = StdResult.ret c (some m)) :
    (is_valid_uuid cv = true →
      check_file_format cfg std ((s0 :: c0 :: t0) :: (s1 :: c1 :: t1) :: rest) =
        Except.ok (s0 :: c0 :: t0, s0 :: c0 :: t0, s0, c0)) ∧
    (is_valid_uuid cv = false → cfg.generate_uuid = false →
      check_file_format cfg std ((s0 :: c0 :: t0) :: (s1 :: c1 :: t1) :: rest) =
        Except.error 1) ∧
    (is_valid_uuid cv = false → cfg.generate_uuid = true →
      check_file_format cfg std ((s0 :: c0 :: t0) :: (s1 :: c1 :: t1) :: rest) =
        Except.ok (s0 :: c0 :: t0, s0 :: "uuid" :: c0 :: t0, s0, "uuid")) := by
  have hbne : (c0 == s0) = false := beq_eq_false_iff_ne.mpr hne
  obtain ⟨g, hd⟩ := cfg
  cases hd
  · simp only [Bool.false_eq_true, if_false] at hsv hcv
    subst hsv
    subst hcv
    refine ⟨fun hv => ?_, fun hv hg => ?_, fun hv hg => ?_⟩
    · simp [check_file_format, List.lookup, hbne, hstd, hv]
    · have hg2 : g = false := hg
      subst hg2
      simp [check_file_format, List.lookup, hbne, hstd, hv]
    · have hg2 : g = true := hg
      subst hg2
      simp [check_file_format, List.lookup, hbne, hstd, hv]
  · simp only [if_true] at hsv hcv
    subst hsv
    subst hcv
    refine ⟨fun hv => ?_, fun hv hg => ?_, fun hv hg => ?_⟩
    · simp [check_file_format, List.lookup, hbne, hstd, hv]
    · have hg2 : g = false := hg
      subst hg2
      simp [check_file_format, List.lookup, hbne, hstd, hv]
    · have hg2 : g = true := hg
      subst hg2
      simp [check_file_format, List.lookup, hbne, hstd, hv]

/-- C3 witness: the amended theorem applied to a concrete `header=true`,
`generate_uuid=true` file whose first data row does not carry a valid
identifier in column 1, producing the inserted `uuid` column. -/
theorem c3_heading_reconciliation_witness :
    check_file_format ⟨true, true⟩ stdOracle
      [["smiles", "id", "w"], ["CCO", "x", "y"]] =
      Except.ok (["smiles", "id", "w"], ["smiles", "uuid", "id", "w"], "smiles", "uuid") :=
  (c3_heading_reconciliation ⟨true, true⟩ stdOracle "smiles" "id" ["w"] "CCO" "x" ["y"]
    [] "CCO" "CCO" "x" ⟨"iC", "kC", 3⟩ (by decide) rfl rfl rfl).2.2 (by decide) rfl

/-- C4: the error-severity asymmetry of record standardization — for any
record reached by the loop, if the standardization capability raises on
the record's smiles value the whole run terminates with the fatal
non-zero exit (regardless of any remaining records), whereas a null
structural handle only increments `num_failed` (writing the failure row in
generation mode) and the loop continues with the remaining records. -/
theorem c4_error_severity_asymmetry (cfg : Config) (smilesCol uuidCol : String)
    (outH : List String) (std : String → StdResult) (gen : Nat → String)
    (est : String → String) (st : RunState) (row : List (String × String))
    (rest : List (List (String × String))) (sm c : String)
    (hsm : List.lookup smilesCol row = some sm) :
    (std sm = StdResult.raises →
      processRows cfg smilesCol uuidCol outH std gen est st (row :: rest) =
        Except.error 1) ∧
    (std sm = StdResult.ret c none →
      processRows cfg smilesCol uuidCol outH std gen est st (row :: rest) =
        processRows cfg smilesCol uuidCol outH std gen est
          { st with
            num_processed := st.num_processed + 1
            num_failed := st.num_failed + 1
            rewritten := if cfg.generate_uuid then
                st.rewritten ++ [write_output_csv_fail outH uuidCol row]
              else st.rewritten } rest) := by
  constructor
  · intro h
    simp [processRows, processRow, hsm, h]
  · intro h
    simp [processRows, processRow, hsm, h]

/-- C4 witness: a raising capability call terminates a concrete run with
the fatal exit. -/
theorem c4_error_severity_asymmetry_witness :
    processRows ⟨true, true⟩ "smiles" "uuid" ["smiles", "uuid"] stdRaise genOracle estOracle
      (initState "smiles" "uuid") [[("smiles", "boom")]] = Except.error 1 :=
  (c4_error_severity_asymmetry ⟨true, true⟩ "smiles" "uuid" ["smiles", "uuid"] stdRaise
    genOracle estOracle (initState "smiles" "uuid") [("smiles", "boom")] [] "boom" ""
    rfl).1 rfl

/-- C5: in validation mode, a record that standardizes successfully but
whose identifier-column value is not a valid identifier only increments
`num_failed` (besides the loop counters `num_processed` and `num_mols`):
the loader output, the rewritten output, the observed fields and the
uuid-stream position are untouched, no identifier is generated, and the
loop continues with the remaining records. -/
theorem c5_validation_identifier_failure (cfg : Config) (smilesCol uuidCol : String)
    (outH : List String) (std : String → StdResult) (gen : Nat → String)
    (est : String → String) (st : RunState) (row : List (String × String))
    (rest : List (List (String × String))) (sm c : String) (m : Mol)
    (hgen : cfg.generate_uuid = false)
    (hsm : List.lookup smilesCol row = some sm)
    (hstd : std sm = StdResult.ret c (some m))
    (hbad : is_valid_uuid ((List.lookup uuidCol row).getD "None") = false) :
    processRows cfg smilesCol uuidCol outH std gen est st (row :: rest) =
      processRows cfg smilesCol uuidCol outH std gen est
        { st with
          num_processed := st.num_processed + 1
          num_mols := st.num_mols + 1
          num_failed := st.num_failed + 1 } rest := by
  simp [processRows, processRow, hsm, hstd, hgen, hbad]

/-- C5 witness: a concrete validation-mode run in which the only record
standardizes but carries `not-a-uuid` in the identifier column. -/
theorem c5_validation_identifier_failure_witness :
    processRows ⟨false, false⟩ "smiles" "uuid" ["smiles", "uuid"] stdOracle genOracle
      estOracle (initState "smiles" "uuid")
      [[("smiles", "CCO"), ("uuid", "not-a-uuid")]] =
    processRows ⟨false, false⟩ "smiles" "uuid" ["smiles", "uuid"] stdOracle genOracle
      estOracle
      { initState "smiles" "uuid" with
        num_processed := 1, num_mols := 1, num_failed := 1 } [] :=
  c5_validation_identifier_failure ⟨false, false⟩ "smiles" "uuid" ["smiles", "uuid"]
    stdOracle genOracle estOracle (initState "smiles" "uuid")
    [("smiles", "CCO"), ("uuid", "not-a-uuid")] [] "CCO" "CCO" ⟨"iC", "kC", 3⟩
    rfl rfl rfl (by decide)

/-- C6: the schema merge is idempotent — merging the observed-field set
into the schema it has just produced changes nothing (a fixed point of the
merge for the same observed fields). -/
theorem c6_merge_idempotent (observed : List (String × String)) (prior : List Field) :
    mergeFields observed (mergeFields observed prior) = mergeFields observed prior := by
  have hobs := mergeFields_observed_present observed prior
  rw [show mergeFields observed (mergeFields observed prior) =
      deactivateMissing (observed.map Prod.fst)
        ((mergeFields observed prior).map Field.name)
        (addNewFields observed (mergeFields observed prior)) from rfl]
  rw [addNewFields_eq_self observed _ hobs]
  rw [deactivateMissing_eq_map]
  have hpoint : ∀ g ∈ mergeFields observed prior,
      deactF (observed.map Prod.fst) ((mergeFields observed prior).map Field.name) g = g := by
    intro g hg
    cases hcg : (observed.map Prod.fst).contains g.name with
    | true =>
      unfold deactF
      rw [hcg]
      simp
    | false =>
      have hact : g.active = false :=
        mergeFields_unobserved_inactive observed prior g hg hcg
      obtain ⟨gn, gt, ga⟩ := g
      have hga : ga = false := hact
      subst hga
      unfold deactF
      split <;> rfl
  rw [List.map_congr_left hpoint, List.map_id']

/-- C7 amended: the merged schema keeps every prior field (none removed):
a prior field whose name was observed is kept exactly as it was in the
prior schema (so a previously inactive field observed again stays
inactive — this is the corrected part), a prior field not observed is kept
with `active=false`, every observed name is present in the merged schema,
an observed field new to the schema is added with `active=true`, and every
merged field whose name was not observed is inactive. -/
theorem c7_schema_soft_deactivation (observed : List (String × String))
    (prior : List Field) :
    (∀ f ∈ prior, (observed.map Prod.fst).contains f.name = true →
        f ∈ mergeFields observed prior) ∧
    (∀ f ∈ prior, (observed.map Prod.fst).contains f.name = false →
        { f with active := false } ∈ mergeFields observed prior) ∧
    (∀ p ∈ observed, hasFieldName (mergeFields observed prior) p.1 = true) ∧
    (∀ p ∈ observed, hasFieldName prior p.1 = false →
        ∃ g ∈ mergeFields observed prior, g.name = p.1 ∧ g.active = true) ∧
    (∀ g ∈ mergeFields observed prior,
        (observed.map Prod.fst).contains g.name = false → g.active = false) := by
  refine ⟨?_, ?_, mergeFields_observed_present observed prior, ?_,
    mergeFields_unobserved_inactive observed prior⟩
  · intro f hf hc
    unfold mergeFields
    rw [deactivateMissing_eq_map]
    refine List.mem_map.mpr ⟨f, mem_addNewFields observed prior f hf, ?_⟩
    unfold deactF
    rw [hc]
    simp
  · intro f hf hc
    unfold mergeFields
    rw [deactivateMissing_eq_map]
    refine List.mem_map.mpr ⟨f, mem_addNewFields observed prior f hf, ?_⟩
    unfold deactF
    rw [hc, contains_of_mem (List.mem_map.mpr ⟨f, hf, rfl⟩)]
    simp
  · intro p hp hno
    obtain ⟨g, hg, hname, hact⟩ := addNewFields_active observed prior p.1
      (contains_of_mem (List.mem_map.mpr ⟨p, hp, rfl⟩)) hno
    refine ⟨g, ?_, hname, hact⟩
    unfold mergeFields
    rw [deactivateMissing_eq_map]
    refine List.mem_map.mpr ⟨g, hg, ?_⟩
    unfold deactF
    rw [hname, contains_of_mem (List.mem_map.mpr ⟨p, hp, rfl⟩)]
    simp

/-- C7 witness: the amended theorem applied to a concrete merge — the
unobserved prior field `b` appears soft-deactivated in the merged
schema. -/
theorem c7_schema_soft_deactivation_witness :
    ({ (⟨"b", "string", true⟩ : Field) with active := false } : Field) ∈
      mergeFields [("a", "string")] [⟨"b", "string", true⟩] :=
  (c7_schema_soft_deactivation [("a", "string")] [⟨"b", "string", true⟩]).2.1
    ⟨"b", "string", true⟩ (by decide) (by decide)

/-- C7 counterexample: a field observed in the current file but already
present in the prior schema keeps its prior activation flag, so a
previously soft-deleted field (`active=false`) that reappears in the file
stays inactive in the merged schema, contradicting the claim that every
observed field is present with `active=true`. -/
theorem c7_counterexample :
    mergeFields [("foo", "string")] [⟨"foo", "string", false⟩] =
      [⟨"foo", "string", false⟩] ∧
    (mergeFields [("foo", "string")] [⟨"foo", "string", false⟩]).all
      (fun f => !(f.name == "foo" && f.active)) = true := by
  exact ⟨by decide, by decide⟩

/-- C8: for every input and configuration, a completed run's load-ready
output begins with the fixed heading row (written unconditionally, so also
when `header=false`) and every data row written to it has exactly six
cells, one per fixed column `[smiles, inchis, inchik, hac, molecule-uuid,
rec_number]`, independent of the input file's column set. -/
theorem c8_loader_fixed_shape (pv : ProcessVars) (std : String → StdResult)
    (gen : Nat → String) (est : String → String) (rows : List (List String))
    (res : PipeResult) (hrun : runPipeline pv std gen est rows = Except.ok res) :
    res.loader.head? = some OUTPUT_COLUMNS ∧
    (res.loader.drop 1).all (fun r => r.length == 6) = true := by
  simp only [runPipeline] at hrun
  cases hc : check_file_format (Config.ofVars pv) std rows with
  | error e => rw [hc] at hrun; cases hrun
  | ok q =>
    obtain ⟨inH, outH, smilesCol, uuidCol⟩ := q
    rw [hc] at hrun
    dsimp only at hrun
    cases hp : process_file (Config.ofVars pv) smilesCol uuidCol outH std gen est
        (rows.map (fun r => inH.zip r)) with
    | error e => rw [hp] at hrun; cases hrun
    | ok st =>
      rw [hp] at hrun
      cases hrun
      refine ⟨rfl, ?_⟩
      have hst : st.loader.all (fun r => r.length == 6) = true := by
        unfold process_file at hp
        by_cases hh : (Config.ofVars pv).header = true
        · rw [if_pos hh] at hp
          cases hrows : rows.map (fun r => inH.zip r) with
          | nil => rw [hrows] at hp; cases hp
          | cons r0 rs =>
            rw [hrows] at hp
            exact processRows_loader_len (Config.ofVars pv) smilesCol uuidCol outH std
              gen est rs (initState smilesCol uuidCol) st hp rfl
        · rw [if_neg hh] at hp
          exact processRows_loader_len (Config.ofVars pv) smilesCol uuidCol outH std
            gen est (rows.map (fun r => inH.zip r)) (initState smilesCol uuidCol) st hp rfl
      simpa using hst

/-- C8 witness: a concrete completed run (one success, one failure). -/
theorem c8_loader_fixed_shape_witness :
    (([OUTPUT_COLUMNS,
       ["CCO", "iC", "kC", "3", "11111111-1111-4111-8111-111111111110", "1"]] :
        List (List String)).head? = some OUTPUT_COLUMNS) ∧
    (([OUTPUT_COLUMNS,
       ["CCO", "iC", "kC", "3", "11111111-1111-4111-8111-111111111110", "1"]] :
        List (List String)).drop 1).all (fun r => r.length == 6) = true :=
  c8_loader_fixed_shape defaultVars stdOracle genOracle estOracle
    [["smiles", "uuid"],
     ["CCO", "f47ac10b-58cc-4372-a567-0e02b2c3d479"],
     ["junk", ""]]
    { processed := 2, failed := 1, mols := 1,
      fields := [("smiles", "string"), ("uuid", "string")],
      loader := [OUTPUT_COLUMNS,
                 ["CCO", "iC", "kC", "3", "11111111-1111-4111-8111-111111111110", "1"]],
      rewritten := some [["smiles", "uuid"],
                         ["CCO", "11111111-1111-4111-8111-111111111110"],
                         ["junk", ""]],
      outHeadings := ["smiles", "uuid"], uuidCol := "uuid" }
    rfl

/-- C9 counterexample: for the blob `generate_uuid=` the recognized key is
assigned the empty-string value, which is not converted to a boolean and
is left as the falsy empty string, so the downstream truthiness test
`if processing_vars['generate_uuid']:` behaves as false — the claim says
every value other than case-insensitive `'false'` (including the empty
string) leaves the flag behaving as true. -/
theorem c9_counterexample :
    get_processing_variables (some "generate_uuid=") =
      Except.ok { generate_uuid := PVal.s "", header := PVal.b true } ∧
    truthy (PVal.s "") = false := by
  exact ⟨by decide, by decide⟩

/-- C9 amended: parsing defaults both flags to true when the blob is
absent; a single recognized `generate_uuid=<v>` assignment makes the flag
behave as false exactly when `<v>` is the string `false` ignoring case
(converted to boolean `False`) or the empty string (left as the falsy
empty string); every other value string leaves the flag behaving as
true. -/
theorem c9_flag_parsing (b row v : String) (r : ProcessVars)
    (hb : pySplit "&" b = [row])
    (hrow : pySplit "=" row = ["generate_uuid", v])
    (h : get_processing_variables (some b) = Except.ok r) :
    truthy r.generate_uuid = (!(v == "") && !(pyLower v == "false")) ∧
    r.header = PVal.b true ∧
    get_processing_variables none = Except.ok defaultVars := by
  by_cases hbe : b = ""
  · subst hbe
    rw [show pySplit "&" "" = [""] from rfl] at hb
    cases hb
    rw [show pySplit "=" "" = [""] from rfl] at hrow
    simp at hrow
  · have hbeq : (b == "") = false := beq_eq_false_iff_ne.mpr hbe
    have hcalc : get_processing_variables (some b) =
        Except.ok { generate_uuid := finalizeFlag (PVal.s v), header := PVal.b true } := by
      unfold get_processing_variables
      dsimp only
      rw [hbeq, hb]
      simp only [Bool.false_eq_true, if_false, List.foldlM, applyParam, hrow,
        List.headD, List.get?]
      rw [show (pyLower "generate_uuid" == "generate_uuid") = true from rfl,
        show ("generate_uuid" == "generate_uuid") = true from rfl]
      simp [defaultVars, bind, Except.bind, pure, Except.pure]
      rfl
    rw [hcalc] at h
    cases h
    refine ⟨?_, rfl, rfl⟩
    cases hf : pyLower v == "false" with
    | true => simp [finalizeFlag, truthy, hf]
    | false => simp [finalizeFlag, truthy, hf]

/-- C9 witness: the amended theorem applied to the blob `generate_uuid=`,
whose empty value makes the flag falsy. -/
theorem c9_flag_parsing_witness :
    truthy ({ generate_uuid := PVal.s "", header := PVal.b true } : ProcessVars).generate_uuid =
      (!(("" : String) == "") && !(pyLower "" == "false")) ∧
    ({ generate_uuid := PVal.s "", header := PVal.b true } : ProcessVars).header =
      PVal.b true ∧
    get_processing_variables none = Except.ok defaultVars :=
  c9_flag_parsing "generate_uuid=" "generate_uuid=" ""
    { generate_uuid := PVal.s "", header := PVal.b true } rfl rfl rfl

/-- C10: `is_valid_uuid` accepts exactly the strings the platform UUID
parser accepts — the parser is total in the model, `ValueError` is mapped
to `false` — and concretely accepts a version-1 identifier, a hyphenless
identifier and a URN-prefixed identifier while rejecting an unparseable
string with result `false`. -/
theorem c10_uuid_validation :
    (∀ s : String, (is_valid_uuid s = true ↔ pyUUID s = Except.ok ())) ∧
    (∀ s : String, pyUUID s = Except.error () → is_valid_uuid s = false) ∧
    is_valid_uuid "12345678-1234-1234-1234-123456789abc" = true ∧
    is_valid_uuid "12345678123412341234123456789abc" = true ∧
    is_valid_uuid "urn:uuid:12345678-1234-1234-1234-123456789abc" = true ∧
    is_valid_uuid "f47ac10b-58cc-4372-a567-0e02b2c3d479" = true ∧
    is_valid_uuid "not-a-uuid" = false := by
  refine ⟨fun s => ?_, fun s h => ?_, by decide, by decide, by decide, by decide, by decide⟩
  · unfold is_valid_uuid
    cases h : pyUUID s with
    | ok u => cases u; simp
    | error e => cases e; simp
  · unfold is_valid_uuid
    rw [h]

/-- C10 witness: the equivalence applied at a concrete unparseable
string. -/
theorem c10_uuid_validation_witness : is_valid_uuid "not-a-uuid" = false :=
  c10_uuid_validation.2.1 "not-a-uuid" (by decide)

end CsvFormat
